import Mathlib

/-!
Verification development for the growing-tube-model estimation library.

The Python source is shallowly embedded over `ℝ`: numpy scalar arithmetic
becomes real arithmetic (with Lean's `x / 0 = 0` convention standing in for
the IEEE division-by-zero artifacts, noted where it matters), numpy arrays
become `List ℝ`, 3-vectors become `Fin 3 → ℝ`, and the `NotImplementedError`
raised by `growing_tube_model` becomes an `Except String` error value.
External numerical services (scipy's `curve_fit`, `make_lsq_spline`,
`integrate.quad`) are out of the repository; they enter as explicit
parameters or as their documented mathematical meaning, called out at each
definition.
-/

namespace GrowingTube

/-! ## Geometry kernel: `_growing_tube_model.py` -/

/-- Embedding of `_generating_spiral_const(s, E, C, T, r0)`: the generating
spiral components `P`, `Q`, `R` exactly as the Python source computes them. -/
noncomputable def generating_spiral_const (s E C T r0 : ℝ) : Fin 3 → ℝ :=
  let D := Real.sqrt (C ^ 2 + T ^ 2)
  let ED3E2pD2 := E * D ^ 3 * (E ^ 2 + D ^ 2)
  let expEs := Real.exp (E * s)
  let sinDs := Real.sin (D * s)
  let cosDs := Real.cos (D * s)
  let P := r0 * D *
      ((D ^ 2 * T ^ 2 + E ^ 2 * T ^ 2 + C ^ 2 * E ^ 2 * cosDs + E * D * C ^ 2 * sinDs) * expEs
        - D ^ 2 * (E ^ 2 + T ^ 2)) / ED3E2pD2
  let Q := r0 * C * D * E *
      (-expEs * (C ^ 2 + T ^ 2) * cosDs + D * (D + expEs * E * sinDs)) / ED3E2pD2
  let R := r0 * C * T * D *
      ((E ^ 2 + D ^ 2 - E ^ 2 * cosDs - E * D * sinDs) * expEs - D ^ 2) / ED3E2pD2
  ![P, Q, R]

/-- Embedding of `_generating_curve_const(s, phi, E, C, T, r0)`: the generating
curve components `X`, `Y`, `Z` exactly as the Python source computes them. -/
noncomputable def generating_curve_const (s phi E C T r0 : ℝ) : Fin 3 → ℝ :=
  let D := Real.sqrt (C ^ 2 + T ^ 2)
  let X := -(C * Real.exp (E * s) * r0 *
      (D ^ 2 * Real.cos phi * Real.sin (s * D)
        + T * D * (-1 + Real.cos (s * D)) * Real.sin phi)) / D ^ 3
  let Y := Real.exp (E * s) * r0 *
      (Real.cos (s * D) * Real.cos phi - T * Real.sin (s * D) * Real.sin phi / D)
  let Z := Real.exp (E * s) * r0 *
      (T * Real.cos phi * Real.sin (s * D) / D
        + (C ^ 2 + T ^ 2 * Real.cos (s * D)) * Real.sin phi / D ^ 2)
  ![X, Y, Z]

/-- Embedding of `_growing_tube_model_const` for scalar `s`, `phi`: the spiral
and curve vectors are summed elementwise, the rigid transform `p0 + R0 @ v` is
applied; for 1-D input the trailing `UMat.T` of the source is the identity. -/
noncomputable def growing_tube_model_const (s phi E C T r0 : ℝ) (p0 : Fin 3 → ℝ)
    (R0 : Matrix (Fin 3) (Fin 3) ℝ) : Fin 3 → ℝ :=
  fun i => p0 i +
    R0.mulVec (fun j => generating_spiral_const s E C T r0 j
      + generating_curve_const s phi E C T r0 j) i

/-- Python runtime value passed for each of `E`, `C`, `T`: a plain real scalar,
an ndarray, or a callable, mirroring the dynamic dispatch in
`growing_tube_model`. -/
inductive ParamValue : Type
  | realScalar (x : ℝ)
  | ndarray (xs : List ℝ)
  | callable (f : ℝ → ℝ)

/-- Test mirroring Python's `isinstance(·, numbers.Real)`. -/
def ParamValue.isRealScalar : ParamValue → Bool
  | .realScalar _ => true
  | _ => false

/-- Embedding of the public `growing_tube_model(s, phi, E, C, T, r0, p0, R0)`:
if `E`, `C` and `T` are all real scalars it evaluates the constant-parameter
model, otherwise it raises `NotImplementedError("Not implemented yet")`. -/
noncomputable def growing_tube_model (s phi : ℝ) (E C T : ParamValue) (r0 : ℝ)
    (p0 : Fin 3 → ℝ) (R0 : Matrix (Fin 3) (Fin 3) ℝ) : Except String (Fin 3 → ℝ) :=
  match E, C, T with
  | .realScalar e, .realScalar c, .realScalar t =>
      Except.ok (growing_tube_model_const s phi e c t r0 p0 R0)
  | _, _, _ => Except.error "Not implemented yet"

/-! ## baseline sanity facts about the embedding -/

theorem growing_tube_model_real_eq (s phi e c t r0 : ℝ) (p0 : Fin 3 → ℝ)
    (R0 : Matrix (Fin 3) (Fin 3) ℝ) :
    growing_tube_model s phi (.realScalar e) (.realScalar c) (.realScalar t) r0 p0 R0
      = Except.ok (growing_tube_model_const s phi e c t r0 p0 R0) := rfl

/-! ## C5: not-implemented dispatch -/

/-- C5: `growing_tube_model` raises the not-implemented error iff at least one
of `E`, `C`, `T` is not a plain real scalar; when all three are real scalars it
proceeds to the constant-parameter evaluation without raising. -/
theorem growing_tube_model_not_implemented_iff (s phi : ℝ) (E C T : ParamValue)
    (r0 : ℝ) (p0 : Fin 3 → ℝ) (R0 : Matrix (Fin 3) (Fin 3) ℝ) :
    ((∃ msg, growing_tube_model s phi E C T r0 p0 R0 = Except.error msg) ↔
      ¬(E.isRealScalar = true ∧ C.isRealScalar = true ∧ T.isRealScalar = true)) ∧
    (∀ e c t : ℝ,
      growing_tube_model s phi (.realScalar e) (.realScalar c) (.realScalar t) r0 p0 R0
        = Except.ok (growing_tube_model_const s phi e c t r0 p0 R0)) := by
  constructor
  · cases E <;> cases C <;> cases T <;>
      simp [growing_tube_model, ParamValue.isRealScalar]
  · intro e c t
    rfl

/-! ## C1: closed forms of the spec vs the source -/

/-- Generating-spiral component `P` exactly as written in the spec:
`P = r0·D·[(D²T² + E²T² + C²E²cos(Ds) + ED·C²·sin(Ds))·exp(Es) − D²(E²+T²)] / (E·D³·(E²+D²))`. -/
noncomputable def specP (s E C T r0 : ℝ) : ℝ :=
  let D := Real.sqrt (C ^ 2 + T ^ 2)
  r0 * D * ((D ^ 2 * T ^ 2 + E ^ 2 * T ^ 2 + C ^ 2 * E ^ 2 * Real.cos (D * s)
      + E * D * C ^ 2 * Real.sin (D * s)) * Real.exp (E * s)
    - D ^ 2 * (E ^ 2 + T ^ 2)) / (E * D ^ 3 * (E ^ 2 + D ^ 2))

/-- Generating-spiral component `Q` exactly as written in the spec:
`Q = r0·C·D·E·[−exp(Es)(C²+T²)cos(Ds) + D(D + exp(Es)·E·sin(Ds))] / (E·D³·(E²+D²))`. -/
noncomputable def specQ (s E C T r0 : ℝ) : ℝ :=
  let D := Real.sqrt (C ^ 2 + T ^ 2)
  r0 * C * D * E * (-Real.exp (E * s) * (C ^ 2 + T ^ 2) * Real.cos (D * s)
    + D * (D + Real.exp (E * s) * E * Real.sin (D * s))) / (E * D ^ 3 * (E ^ 2 + D ^ 2))

/-- Generating-spiral component `R` exactly as written in the spec:
`R = r0·C·T·D·[(E²+D² − E²cos(Ds) − ED·sin(Ds))·exp(Es) − D²] / (E·D³·(E²+D²))`. -/
noncomputable def specR (s E C T r0 : ℝ) : ℝ :=
  let D := Real.sqrt (C ^ 2 + T ^ 2)
  r0 * C * T * D * ((E ^ 2 + D ^ 2 - E ^ 2 * Real.cos (D * s)
    - E * D * Real.sin (D * s)) * Real.exp (E * s) - D ^ 2) / (E * D ^ 3 * (E ^ 2 + D ^ 2))

/-- Generating-curve component `X` exactly as written in the spec:
`X = −C·exp(Es)·r0·[D²cos(phi)sin(sD) + TD(cos(sD)−1)sin(phi)] / D³`. -/
noncomputable def specX (s phi E C T r0 : ℝ) : ℝ :=
  let D := Real.sqrt (C ^ 2 + T ^ 2);
  -C * Real.exp (E * s) * r0 * (D ^ 2 * Real.cos phi * Real.sin (s * D)
    + T * D * (Real.cos (s * D) - 1) * Real.sin phi) / D ^ 3

/-- Generating-curve component `Y` exactly as written in the spec:
`Y = exp(Es)·r0·[cos(sD)cos(phi) − (T·sin(sD)sin(phi))/D]`. -/
noncomputable def specY (s phi E C T r0 : ℝ) : ℝ :=
  let D := Real.sqrt (C ^ 2 + T ^ 2)
  Real.exp (E * s) * r0 * (Real.cos (s * D) * Real.cos phi
    - T * Real.sin (s * D) * Real.sin phi / D)

/-- Generating-curve component `Z` exactly as written in the spec:
`Z = exp(Es)·r0·[(T·cos(phi)sin(sD))/D + (C² + T²cos(sD))·sin(phi)/D²]`. -/
noncomputable def specZ (s phi E C T r0 : ℝ) : ℝ :=
  let D := Real.sqrt (C ^ 2 + T ^ 2)
  Real.exp (E * s) * r0 * (T * Real.cos phi * Real.sin (s * D) / D
    + (C ^ 2 + T ^ 2 * Real.cos (s * D)) * Real.sin phi / D ^ 2)

/-- C1: for real parameters with `E ≠ 0` and `D = sqrt(C² + T²) ≠ 0`,
`growing_tube_model` computes the spiral components `P`, `Q`, `R` and the
curve components `X`, `Y`, `Z` exactly by the spec's closed-form expressions,
sums them elementwise, and returns `p0 + R0` applied to that sum. -/
theorem growing_tube_model_matches_spec_closed_forms (s phi E C T r0 : ℝ)
    (p0 : Fin 3 → ℝ) (R0 : Matrix (Fin 3) (Fin 3) ℝ)
    (hE : E ≠ 0) (hD : Real.sqrt (C ^ 2 + T ^ 2) ≠ 0) :
    growing_tube_model s phi (.realScalar E) (.realScalar C) (.realScalar T) r0 p0 R0
      = Except.ok (fun i => p0 i +
          R0.mulVec (fun j => ![specP s E C T r0, specQ s E C T r0, specR s E C T r0] j
            + ![specX s phi E C T r0, specY s phi E C T r0, specZ s phi E C T r0] j) i) := by
  rw [growing_tube_model_real_eq]
  congr 1
  have hs : generating_spiral_const s E C T r0
      = ![specP s E C T r0, specQ s E C T r0, specR s E C T r0] := by
    funext j
    fin_cases j <;>
      · simp only [generating_spiral_const, specP, specQ, specR,
          Matrix.cons_val_zero, Matrix.cons_val_one, Matrix.head_cons,
          Matrix.cons_val_two, Matrix.tail_cons, Fin.mk_one, Fin.zero_eta]
        try ring
  have hc : generating_curve_const s phi E C T r0
      = ![specX s phi E C T r0, specY s phi E C T r0, specZ s phi E C T r0] := by
    funext j
    fin_cases j <;>
      · simp only [generating_curve_const, specX, specY, specZ,
          Matrix.cons_val_zero, Matrix.cons_val_one, Matrix.head_cons,
          Matrix.cons_val_two, Matrix.tail_cons, Fin.mk_one, Fin.zero_eta]
        try ring
  funext i
  simp only [growing_tube_model_const, hs, hc]

/-- Witness for C1 at `s = 0`, `phi = 0`, `E = 1`, `C = 1`, `T = 0`, `r0 = 1`,
`p0 = 0`, `R0 = 1`: both hypotheses hold and the conclusion follows. -/
theorem growing_tube_model_matches_spec_closed_forms_witness :
    ((1 : ℝ) ≠ 0 ∧ Real.sqrt ((1 : ℝ) ^ 2 + 0 ^ 2) ≠ 0) ∧
    growing_tube_model 0 0 (.realScalar 1) (.realScalar 1) (.realScalar 0) 1
        (fun _ => 0) 1
      = Except.ok (fun i => (fun _ : Fin 3 => (0 : ℝ)) i +
          (1 : Matrix (Fin 3) (Fin 3) ℝ).mulVec
            (fun j => ![specP 0 1 1 0 1, specQ 0 1 1 0 1, specR 0 1 1 0 1] j
              + ![specX 0 0 1 1 0 1, specY 0 0 1 1 0 1, specZ 0 0 1 1 0 1] j) i) := by
  have h1 : (1 : ℝ) ≠ 0 := by norm_num
  have h2 : Real.sqrt ((1 : ℝ) ^ 2 + 0 ^ 2) ≠ 0 := by
    norm_num [Real.sqrt_one]
  exact ⟨⟨h1, h2⟩,
    growing_tube_model_matches_spec_closed_forms 0 0 1 1 0 1 (fun _ => 0) 1 h1 h2⟩

/-! ## C2: behaviour at growth stage s = 0 -/

/-- Helper: at `s = 0` every generating-spiral component vanishes (the spiral
starts at the origin), assuming `E ≠ 0` and `D ≠ 0`. -/
theorem generating_spiral_const_at_zero (E C T r0 : ℝ) (hE : E ≠ 0)
    (hD : Real.sqrt (C ^ 2 + T ^ 2) ≠ 0) :
    generating_spiral_const 0 E C T r0 = fun _ => 0 := by
  have h : Real.sqrt (C ^ 2 + T ^ 2) ^ 2 = C ^ 2 + T ^ 2 :=
    Real.sq_sqrt (by positivity)
  have hCT : C ^ 2 + T ^ 2 ≠ 0 := by
    intro hc
    exact hD (by rw [hc, Real.sqrt_zero])
  have hquad : E ^ 2 + Real.sqrt (C ^ 2 + T ^ 2) ^ 2 ≠ 0 := by positivity
  funext j
  fin_cases j
  · simp only [generating_spiral_const, mul_zero, zero_mul, Real.sin_zero,
      Real.cos_zero, Real.exp_zero, mul_one, one_mul, add_zero, neg_mul,
      Matrix.cons_val_zero]
    field_simp
    ring
  · simp only [generating_spiral_const, mul_zero, zero_mul, Real.sin_zero,
      Real.cos_zero, Real.exp_zero, mul_one, one_mul, add_zero, neg_mul,
      Matrix.cons_val_one, Matrix.head_cons]
    field_simp
    ring
  · simp only [generating_spiral_const, mul_zero, zero_mul, Real.sin_zero,
      Real.cos_zero, Real.exp_zero, mul_one, one_mul, add_zero, neg_mul,
      Matrix.cons_val_two, Matrix.tail_cons, Matrix.head_cons]
    field_simp

/-- Helper: at `s = 0` the generating curve is the initial cross-section
circle `(0, r0·cos phi, r0·sin phi)`, assuming `D ≠ 0`. -/
theorem generating_curve_const_at_zero (phi E C T r0 : ℝ)
    (hD : Real.sqrt (C ^ 2 + T ^ 2) ≠ 0) :
    generating_curve_const 0 phi E C T r0
      = ![0, r0 * Real.cos phi, r0 * Real.sin phi] := by
  have h : Real.sqrt (C ^ 2 + T ^ 2) ^ 2 = C ^ 2 + T ^ 2 :=
    Real.sq_sqrt (by positivity)
  have hCT : C ^ 2 + T ^ 2 ≠ 0 := by
    intro hc
    exact hD (by rw [hc, Real.sqrt_zero])
  funext j
  fin_cases j
  · simp only [generating_curve_const, mul_zero, zero_mul, Real.sin_zero,
      Real.cos_zero, Real.exp_zero, mul_one, one_mul, add_zero, neg_mul,
      Matrix.cons_val_zero]
    field_simp
  · simp only [generating_curve_const, mul_zero, zero_mul, Real.sin_zero,
      Real.cos_zero, Real.exp_zero, mul_one, one_mul, add_zero, neg_mul,
      Matrix.cons_val_one, Matrix.head_cons]
    field_simp
  · simp only [generating_curve_const, mul_zero, zero_mul, Real.sin_zero,
      Real.cos_zero, Real.exp_zero, mul_one, one_mul, add_zero, neg_mul,
      Matrix.cons_val_two, Matrix.tail_cons, Matrix.head_cons]
    field_simp

/-- C2 (amended): at growth stage `s = 0` the spiral part vanishes, but the
generating curve contributes the initial cross-section circle: the model
returns `p0 + R0 · (0, r0·cos phi, r0·sin phi)`, which depends on `phi` and
equals `p0` only when the circle offset vanishes — not `p0` itself. -/
theorem growing_tube_model_at_zero (phi E C T r0 : ℝ) (p0 : Fin 3 → ℝ)
    (R0 : Matrix (Fin 3) (Fin 3) ℝ) (hE : E ≠ 0)
    (hD : Real.sqrt (C ^ 2 + T ^ 2) ≠ 0) :
    growing_tube_model 0 phi (.realScalar E) (.realScalar C) (.realScalar T) r0 p0 R0
      = Except.ok (fun i => p0 i +
          R0.mulVec ![0, r0 * Real.cos phi, r0 * Real.sin phi] i) := by
  rw [growing_tube_model_real_eq]
  congr 1
  funext i
  simp only [growing_tube_model_const,
    generating_spiral_const_at_zero E C T r0 hE hD,
    generating_curve_const_at_zero phi E C T r0 hD]
  congr 1
  congr 1
  funext j
  simp

/-- Witness for the amended C2 at `phi = 0`, `E = 1`, `C = 1`, `T = 0`,
`r0 = 1`, `p0 = 0`, `R0 = 1`. -/
theorem growing_tube_model_at_zero_witness :
    ((1 : ℝ) ≠ 0 ∧ Real.sqrt ((1 : ℝ) ^ 2 + 0 ^ 2) ≠ 0) ∧
    growing_tube_model 0 0 (.realScalar 1) (.realScalar 1) (.realScalar 0) 1
        (fun _ => 0) 1
      = Except.ok (fun i => (fun _ : Fin 3 => (0 : ℝ)) i +
          (1 : Matrix (Fin 3) (Fin 3) ℝ).mulVec
            ![0, 1 * Real.cos 0, 1 * Real.sin 0] i) := by
  have h1 : (1 : ℝ) ≠ 0 := by norm_num
  have h2 : Real.sqrt ((1 : ℝ) ^ 2 + 0 ^ 2) ≠ 0 := by
    norm_num [Real.sqrt_one]
  exact ⟨⟨h1, h2⟩, growing_tube_model_at_zero 0 1 1 0 1 (fun _ => 0) 1 h1 h2⟩

/-- C2 (counterexample): at `s = 0`, `phi = 0`, `E = 1`, `C = 1`, `T = 0`,
`r0 = 1`, `p0 = 0`, `R0 = 1` the returned point has second component `1`
while `p0`'s is `0`: the result is not `p0`, and the difference exceeds the
claimed `1e-9` tolerance by nine orders of magnitude. -/
theorem growing_tube_model_at_zero_ne_p0 :
    growing_tube_model_const 0 0 1 1 0 1 (fun _ => 0) 1 1 = 1 ∧
    ¬ |growing_tube_model_const 0 0 1 1 0 1 (fun _ => 0) 1 1 - (fun _ : Fin 3 => (0 : ℝ)) 1|
        ≤ 1 / 1000000000 := by
  have hval : growing_tube_model_const 0 0 1 1 0 1 (fun _ => 0) 1 1 = 1 := by
    have hsq : Real.sqrt ((1 : ℝ) ^ 2 + 0 ^ 2) = 1 := by
      norm_num [Real.sqrt_one]
    simp only [growing_tube_model_const, generating_spiral_const,
      generating_curve_const, Matrix.one_mulVec, hsq]
    norm_num [Matrix.cons_val_one, Matrix.head_cons]
  refine ⟨hval, ?_⟩
  rw [hval]
  norm_num

/-! ## C4: no guard at D = 0 -/

/-- C4 (code bug evidence): with `C = T = 0` — so `D = sqrt(C² + T²) = 0` — the
source raises no `SingularGeometryError`: `growing_tube_model` returns normally,
every division by `D` having gone through (`0` under Lean's convention, NaN/Inf
in the floating-point run). At `s = 1`, `phi = 0`, `E = 1`, `r0 = 1`,
`p0 = 0`, `R0 = 1` it returns the vector `(0, e, 0)`. -/
theorem growing_tube_model_D_zero_returns :
    growing_tube_model 1 0 (.realScalar 1) (.realScalar 0) (.realScalar 0) 1
      (fun _ => 0) 1 = Except.ok ![0, Real.exp 1, 0] := by
  rw [growing_tube_model_real_eq]
  congr 1
  funext i
  simp only [growing_tube_model_const, Matrix.one_mulVec]
  fin_cases i <;>
    simp [generating_spiral_const, generating_curve_const, Real.sqrt_zero]

/-! ## Estimation pipeline: `_growting_tube_estimation.py` -/

/-- Embedding of numpy's `np.linspace(a, b, num)` (endpoint included): entry
`i` is `a + i·(b−a)/(num−1)`; for `num = 1` the division by zero vanishes and
the single entry is `a`, exactly as numpy returns `[a]`. -/
noncomputable def linspace (a b : ℝ) (num : ℕ) : List ℝ :=
  (List.range num).map fun i : ℕ => a + (i : ℝ) * (b - a) / ((num : ℝ) - 1)

/-- Embedding of `gen_knots(start, end, num, rep)`: `rep − 1` copies of
`start`, then `linspace(start, end, num)`, then `rep − 1` copies of `end`. -/
noncomputable def gen_knots (start stop : ℝ) (num rep : ℕ) : List ℝ :=
  List.replicate (rep - 1) start ++ linspace start stop num
    ++ List.replicate (rep - 1) stop

/-- One iteration of the `while` body of `fit_bspline_curve`. The parameter
`arcFn` stands for the library composite
`make_lsq_spline` / `.derivative()` / `integrate.quad` over the fixed data
coords: it maps the current arclength parameters and knots to the fitted
spline's integrated arclength. The iteration returns the rescaled parameters,
the regenerated knots and the arclength ratio it computed. -/
noncomputable def fit_bspline_step (arcFn : List ℝ → List ℝ → ℝ) (k : ℕ)
    (revisedRatio : ℝ) (params knots : List ℝ) : List ℝ × List ℝ × ℝ :=
  let arclength := arcFn params knots
  let arclengthOld := params.getLastD 0
  let arclengthRatio := arclength / arclengthOld
  let arclengthRevisedRatio :=
    ((arclength - arclengthOld) * revisedRatio + arclengthOld) / arclengthOld
  let paramsUpdated := params.map (fun x => arclengthRevisedRatio * x)
  let knotsUpdated :=
    gen_knots (paramsUpdated.headD 0) (paramsUpdated.getLastD 0) 200 (k + 1)
  (paramsUpdated, knotsUpdated, arclengthRatio)

/-- Fuelled embedding of the `while abs(1 - arclength_ratio) > tol` loop of
`fit_bspline_curve`; `none` models exhausting the fuel (the source has no
iteration cap). -/
noncomputable def fit_bspline_loop (arcFn : List ℝ → List ℝ → ℝ) (k : ℕ)
    (revisedRatio tol : ℝ) : ℕ → List ℝ → List ℝ → ℝ → Option (List ℝ)
  | 0, _, _, _ => none
  | fuel + 1, params, knots, ratio =>
      if |1 - ratio| ≤ tol then some params
      else
        let st := fit_bspline_step arcFn k revisedRatio params knots
        fit_bspline_loop arcFn k revisedRatio tol fuel st.1 st.2.1 st.2.2

/-- Embedding of `fit_bspline_curve`: the loop starts with
`arclength_ratio = 0`, so the first tolerance test compares `|1 - 0|` to
`tol`. -/
noncomputable def fit_bspline_curve (arcFn : List ℝ → List ℝ → ℝ)
    (params knots : List ℝ) (k : ℕ) (revisedRatio tol : ℝ) (fuel : ℕ) :
    Option (List ℝ) :=
  fit_bspline_loop arcFn k revisedRatio tol fuel params knots 0

/-! ## C3: damped correction loop of fit_bspline_curve -/

/-- C3: every iteration of `fit_bspline_curve`'s loop multiplies the entire
arclength-parameter sequence by the damped correction factor
`((trueArclength − last)·revisedRatio + last) / last`, where `last` is the
final element of the current parameter sequence; the ratio recorded by the
iteration is `trueArclength / last`; and the loop exits exactly when
`|1 − ratio| ≤ tol` holds for the ratio of the previous iteration,
returning the current parameters. -/
theorem fit_bspline_curve_damped_update_and_exit
    (arcFn : List ℝ → List ℝ → ℝ) (k : ℕ) (revisedRatio tol : ℝ)
    (params knots : List ℝ) (ratio : ℝ) (fuel : ℕ) :
    (fit_bspline_step arcFn k revisedRatio params knots).1
        = params.map (fun x =>
            ((arcFn params knots - params.getLastD 0) * revisedRatio
                + params.getLastD 0) / params.getLastD 0 * x) ∧
    (fit_bspline_step arcFn k revisedRatio params knots).2.2
        = arcFn params knots / params.getLastD 0 ∧
    fit_bspline_loop arcFn k revisedRatio tol (fuel + 1) params knots ratio
        = (if |1 - ratio| ≤ tol then some params
           else fit_bspline_loop arcFn k revisedRatio tol fuel
             (fit_bspline_step arcFn k revisedRatio params knots).1
             (fit_bspline_step arcFn k revisedRatio params knots).2.1
             (fit_bspline_step arcFn k revisedRatio params knots).2.2) ∧
    fit_bspline_curve arcFn params knots k revisedRatio tol (fuel + 1)
        = fit_bspline_loop arcFn k revisedRatio tol (fuel + 1) params knots 0 :=
  ⟨rfl, rfl, rfl, rfl⟩

/-! ## C8: knot-vector generator `gen_knots` -/

/-- Helper: `linspace` has exactly `num` entries. -/
theorem linspace_length (a b : ℝ) (n : ℕ) : (linspace a b n).length = n := by
  rw [linspace, List.length_map, List.length_range]

/-- Helper: `linspace` is monotone when `a ≤ b`. -/
theorem linspace_chain (a b : ℝ) (n : ℕ) (hab : a ≤ b) :
    (linspace a b n).Chain' (· ≤ ·) := by
  cases n with
  | zero => simp [linspace]
  | succ m =>
      rw [linspace]
      refine (List.chain'_map _).mpr ?_
      refine (List.chain'_range_succ _ m).mpr ?_
      intro i hi
      have hba : (0 : ℝ) ≤ b - a := sub_nonneg.mpr hab
      have hd : (0 : ℝ) ≤ ((m + 1 : ℕ) : ℝ) - 1 := by push_cast; linarith
      rcases eq_or_lt_of_le hd with hzero | hpos
      · rw [← hzero]
        simp
      · refine add_le_add_left ((div_le_div_iff_of_pos_right hpos).mpr ?_) a
        have hii : ((i : ℕ) : ℝ) ≤ ((i.succ : ℕ) : ℝ) := by push_cast; linarith
        exact mul_le_mul_of_nonneg_right hii hba

/-- Helper: for `num = m + 2` the linspace splits into its left endpoint `a`,
the interior samples, and its right endpoint `b`. -/
theorem linspace_decomp (a b : ℝ) (m : ℕ) :
    linspace a b (m + 2)
      = (a :: (List.range m).map
          (fun i : ℕ => a + ((i + 1 : ℕ) : ℝ) * (b - a) / (((m + 2 : ℕ) : ℝ) - 1)))
        ++ [b] := by
  have hm1 : ((m : ℝ) + 1) ≠ 0 := by positivity
  rw [linspace, List.range_succ, List.map_append, List.range_succ_eq_map,
    List.map_cons, List.map_map]
  have h0 : a + ((0 : ℕ) : ℝ) * (b - a) / (((m + 2 : ℕ) : ℝ) - 1) = a := by
    norm_num
  have hlast : a + ((m + 1 : ℕ) : ℝ) * (b - a) / (((m + 2 : ℕ) : ℝ) - 1) = b := by
    push_cast
    have h21 : ((m : ℝ) + 2) - 1 = (m : ℝ) + 1 := by ring
    rw [h21]
    field_simp
  have hfun : ((fun i : ℕ => a + (i : ℝ) * (b - a) / (((m + 2 : ℕ) : ℝ) - 1))
        ∘ Nat.succ)
      = fun i : ℕ => a + ((i + 1 : ℕ) : ℝ) * (b - a) / (((m + 2 : ℕ) : ℝ) - 1) := by
    funext i
    simp [Function.comp, Nat.succ_eq_add_one]
  rw [hfun]
  simp only [List.map_cons, List.map_nil]
  rw [h0, hlast]

/-- C8 (counterexample): the claim fails as stated. At `(a, b, n, r)
= (0, 1, 1, 2)` (count `n = 1`), `gen_knots` returns `[0, 0, 1]`: its last
two entries are `[0, 1]`, not two copies of `b = 1` (numpy's one-point
linspace holds only the start value). At `(1, 0, 2, 1)` (`a > b`) the result
`[1, 0]` is not non-decreasing. -/
theorem gen_knots_claim_false :
    (gen_knots 0 1 1 2).drop ((gen_knots 0 1 1 2).length - 2)
        ≠ List.replicate 2 (1 : ℝ) ∧
    ¬ (gen_knots 1 0 2 1).Chain' (· ≤ ·) := by
  have hr1 : List.range 1 = [0] := by decide
  have hr2 : List.range 2 = [0, 1] := by decide
  have h1 : gen_knots 0 1 1 2 = [0, 0, 1] := by
    rw [gen_knots, linspace, hr1]
    norm_num [List.replicate]
  have h2 : gen_knots 1 0 2 1 = [1, 0] := by
    rw [gen_knots, linspace, hr2]
    norm_num [List.replicate]
  constructor
  · rw [h1]
    norm_num [List.replicate]
  · rw [h2]
    simp only [List.chain'_cons, List.chain'_singleton, and_true]
    norm_num

/-- C8 (amended): for `a ≤ b`, count `n ≥ 2` and repeat `r ≥ 1`,
`gen_knots a b n r` is a non-decreasing sequence of length `n + 2(r−1)` whose
first `r` entries all equal `a` and whose last `r` entries all equal `b`.
(The claim's `n ≥ 1` fails at `n = 1`, where numpy's one-point linspace holds
`a` and not `b`; unrestricted `a, b` fails for `a > b`, where the sequence
decreases.) -/
theorem gen_knots_clamped (a b : ℝ) (n r : ℕ) (hab : a ≤ b) (hn : 2 ≤ n)
    (hr : 1 ≤ r) :
    (gen_knots a b n r).Chain' (· ≤ ·) ∧
    (gen_knots a b n r).length = n + 2 * (r - 1) ∧
    (gen_knots a b n r).take r = List.replicate r a ∧
    (gen_knots a b n r).drop ((gen_knots a b n r).length - r)
        = List.replicate r b := by
  obtain ⟨m, rfl⟩ : ∃ m, n = m + 2 := ⟨n - 2, by omega⟩
  obtain ⟨r', rfl⟩ : ∃ r', r = r' + 1 := ⟨r - 1, by omega⟩
  set mid := (List.range m).map
    (fun i : ℕ => a + ((i + 1 : ℕ) : ℝ) * (b - a) / (((m + 2 : ℕ) : ℝ) - 1))
    with hmid
  have hdec : linspace a b (m + 2) = (a :: mid) ++ [b] := linspace_decomp a b m
  have hlen : (gen_knots a b (m + 2) (r' + 1)).length = (m + 2) + 2 * r' := by
    rw [gen_knots]
    simp [linspace_length]
    omega
  have hsplit : gen_knots a b (m + 2) (r' + 1)
      = List.replicate (r' + 1) a ++ (mid ++ List.replicate (r' + 1) b) := by
    rw [gen_knots, hdec]
    simp only [Nat.add_sub_cancel]
    rw [List.replicate_succ' r' a, List.replicate_succ]
    simp [List.append_assoc]
  refine ⟨?_, ?_, ?_, ?_⟩
  · rw [gen_knots, List.append_assoc]
    simp only [Nat.add_sub_cancel]
    refine List.chain'_append.mpr
      ⟨List.chain'_replicate_of_rel _ le_rfl, ?_, ?_⟩
    · refine List.chain'_append.mpr
        ⟨linspace_chain a b (m + 2) hab,
          List.chain'_replicate_of_rel _ le_rfl, ?_⟩
      intro x hx y hy
      have hxb : x = b := by
        rw [hdec, List.getLast?_concat] at hx
        simp at hx
        exact hx.symm
      have hyb : y = b :=
        List.eq_of_mem_replicate (List.mem_of_mem_head? hy)
      rw [hxb, hyb]
    · intro x hx y hy
      have hxa : x = a := by
        obtain ⟨hne, rfl⟩ := List.mem_getLast?_eq_getLast hx
        exact List.eq_of_mem_replicate (List.getLast_mem hne)
      have hya : y = a := by
        rw [hdec] at hy
        simp at hy
        exact hy.symm
      rw [hxa, hya]
  · rw [hlen]
    omega
  · rw [hsplit]
    exact List.take_left' (by simp)
  · have hfront : (List.replicate (r' + 1) a ++ mid).length
        = (m + 2) + 2 * r' - (r' + 1) := by
      simp [hmid]
      omega
    rw [hlen, hsplit, ← List.append_assoc]
    exact List.drop_left' hfront

/-- Witness for the amended C8 at `a = 0`, `b = 1`, `n = 2`, `r = 2`. -/
theorem gen_knots_clamped_witness :
    ((0 : ℝ) ≤ 1 ∧ 2 ≤ 2 ∧ 1 ≤ 2) ∧
    ((gen_knots 0 1 2 2).Chain' (· ≤ ·) ∧
    (gen_knots 0 1 2 2).length = 2 + 2 * (2 - 1) ∧
    (gen_knots 0 1 2 2).take 2 = List.replicate 2 (0 : ℝ) ∧
    (gen_knots 0 1 2 2).drop ((gen_knots 0 1 2 2).length - 2)
        = List.replicate 2 (1 : ℝ)) := by
  have hab : (0 : ℝ) ≤ 1 := by norm_num
  have hn : 2 ≤ 2 := le_rfl
  have hr : 1 ≤ 2 := by norm_num
  exact ⟨⟨hab, hn, hr⟩, gen_knots_clamped 0 1 2 2 hab hn hr⟩


/-! ## C6: growth-rate estimator `estimate_gt_e_and_r0` -/

/-- Sum of pairwise products `Σ xᵢ·yᵢ` over two lists (zip semantics). -/
def sumMul : List ℝ → List ℝ → ℝ
  | x :: xs, y :: ys => x * y + sumMul xs ys
  | _, _ => 0

/-- Embedding of `estimate_gt_e_and_r0(arclength_parameters, thicknesses)`.
The source delegates to scipy's `curve_fit` on the linear model
`lambda l, r0, e: e * l + r0`; for a linear model `curve_fit` computes the
ordinary least-squares solution, whose exact closed form is the textbook
slope/intercept below. The function returns `(e, r0)`. -/
noncomputable def estimate_gt_e_and_r0 (ls ds : List ℝ) : ℝ × ℝ :=
  let n : ℝ := ls.length
  let sx := ls.sum
  let sy := ds.sum
  let sxx := sumMul ls ls
  let sxy := sumMul ls ds
  let e := (n * sxy - sx * sy) / (n * sxx - sx ^ 2)
  let r0 := (sy - e * sx) / n
  (e, r0)

/-- Helper: the residual sum of an affine model over zipped data, in closed
form. -/
theorem sum_affine_resid (a b : ℝ) : ∀ (xs ys : List ℝ), xs.length = ys.length →
    ((xs.zip ys).map (fun p => a * p.1 + b - p.2)).sum
      = a * xs.sum + xs.length * b - ys.sum
  | [], [], _ => by simp
  | x :: xs, y :: ys, h => by
    have ih := sum_affine_resid a b xs ys (by simpa using h)
    simp only [List.zip_cons_cons, List.map_cons, List.sum_cons, ih,
      List.sum_cons, List.length_cons]
    push_cast
    ring

/-- Helper: the `x`-weighted residual sum of an affine model over zipped data,
in closed form. -/
theorem sum_x_affine_resid (a b : ℝ) : ∀ (xs ys : List ℝ), xs.length = ys.length →
    ((xs.zip ys).map (fun p => p.1 * (a * p.1 + b - p.2))).sum
      = a * sumMul xs xs + b * xs.sum - sumMul xs ys
  | [], [], _ => by simp [sumMul]
  | x :: xs, y :: ys, h => by
    have ih := sum_x_affine_resid a b xs ys (by simpa using h)
    simp only [List.zip_cons_cons, List.map_cons, List.sum_cons, ih,
      List.sum_cons, sumMul]
    ring

/-- C6: `estimate_gt_e_and_r0` returns the least-squares slope as `E` and the
least-squares intercept as `r0` of the model `thickness = E·l + r0` — its
output satisfies both least-squares normal equations (residuals orthogonal to
`1` and to `l`) whenever the design is non-degenerate — and on the exact
linear data `l = [0,1,2,3,4,5]`, `thickness = [1,1.5,2,2.5,3,3.5]` it returns
`E = 0.5`, `r0 = 1` exactly. -/
theorem estimate_gt_e_and_r0_least_squares (xs ys : List ℝ)
    (hlen : xs.length = ys.length)
    (hden : (xs.length : ℝ) * sumMul xs xs - xs.sum ^ 2 ≠ 0) :
    (((xs.zip ys).map (fun p => (estimate_gt_e_and_r0 xs ys).1 * p.1
          + (estimate_gt_e_and_r0 xs ys).2 - p.2)).sum = 0 ∧
      ((xs.zip ys).map (fun p => p.1 * ((estimate_gt_e_and_r0 xs ys).1 * p.1
          + (estimate_gt_e_and_r0 xs ys).2 - p.2))).sum = 0) ∧
    estimate_gt_e_and_r0 [0, 1, 2, 3, 4, 5] [1, 1.5, 2, 2.5, 3, 3.5]
      = (0.5, 1) := by
  have hxs : xs ≠ [] := by
    rintro rfl
    simp [sumMul] at hden
  have hn : (xs.length : ℝ) ≠ 0 := by
    have : xs.length ≠ 0 := by simpa [List.length_eq_zero] using hxs
    exact_mod_cast this
  refine ⟨⟨?_, ?_⟩, ?_⟩
  · rw [sum_affine_resid _ _ xs ys hlen]
    simp only [estimate_gt_e_and_r0]
    field_simp
    ring
  · rw [sum_x_affine_resid _ _ xs ys hlen]
    simp only [estimate_gt_e_and_r0]
    field_simp
    ring
  · norm_num [estimate_gt_e_and_r0, sumMul, Prod.ext_iff]

/-- Witness for C6 at `xs = [0, 1]`, `ys = [0, 1]`: both hypotheses hold and
the normal equations and the concrete evaluation follow. -/
theorem estimate_gt_e_and_r0_least_squares_witness :
    (([0, 1] : List ℝ).length = ([0, 1] : List ℝ).length ∧
      ((([0, 1] : List ℝ).length : ℝ) * sumMul [0, 1] [0, 1]
          - ([0, 1] : List ℝ).sum ^ 2 ≠ 0)) ∧
    ((((([0, 1] : List ℝ).zip ([0, 1] : List ℝ)).map
        (fun p => (estimate_gt_e_and_r0 [0, 1] [0, 1]).1 * p.1
          + (estimate_gt_e_and_r0 [0, 1] [0, 1]).2 - p.2)).sum = 0 ∧
      ((([0, 1] : List ℝ).zip ([0, 1] : List ℝ)).map
        (fun p => p.1 * ((estimate_gt_e_and_r0 [0, 1] [0, 1]).1 * p.1
          + (estimate_gt_e_and_r0 [0, 1] [0, 1]).2 - p.2))).sum = 0) ∧
    estimate_gt_e_and_r0 [0, 1, 2, 3, 4, 5] [1, 1.5, 2, 2.5, 3, 3.5]
      = (0.5, 1)) := by
  have h1 : ([0, 1] : List ℝ).length = ([0, 1] : List ℝ).length := rfl
  have h2 : ((([0, 1] : List ℝ).length : ℝ) * sumMul [0, 1] [0, 1]
      - ([0, 1] : List ℝ).sum ^ 2 ≠ 0) := by
    norm_num [sumMul]
  exact ⟨⟨h1, h2⟩, estimate_gt_e_and_r0_least_squares [0, 1] [0, 1] h1 h2⟩

/-! ## C9: shape of the vectorized model output -/

/-- Embedding of `_growing_tube_model_const` for equal-length array inputs
`s`, `phi`: per broadcast sample the numpy pipeline computes the same
arithmetic as the scalar path (rows `PMat + QMat`, then `p0 + R0 @ row`),
and the trailing `UMat.T` transposes the stack, so the returned array holds
one row per coordinate and one column per sample. -/
noncomputable def growing_tube_model_vec (ss phis : List ℝ) (E C T r0 : ℝ)
    (p0 : Fin 3 → ℝ) (R0 : Matrix (Fin 3) (Fin 3) ℝ) : List (List ℝ) :=
  let rows := (ss.zip phis).map fun sp =>
    growing_tube_model_const sp.1 sp.2 E C T r0 p0 R0
  (List.finRange 3).map fun j => rows.map fun v => v j

/-- C9 (counterexample): for the two broadcast samples `s = [0, 1]`,
`phi = [0, 0]` the returned coordinate array has 3 rows — one per coordinate
— not one row per sample (2): the source transposes with `UMat.T` before
returning. -/
theorem growing_tube_model_vec_not_row_per_sample :
    (growing_tube_model_vec [0, 1] [0, 0] 1 1 0 1 (fun _ => 0) 1).length = 3 ∧
    (growing_tube_model_vec [0, 1] [0, 0] 1 1 0 1 (fun _ => 0) 1).length ≠ 2 := by
  constructor <;> simp [growing_tube_model_vec]

/-- C9 (amended): for `n` broadcast samples the returned array is the
transpose of one-3-vector-per-sample: exactly 3 rows, row `j` listing
coordinate `j` of every sample's world position in sample order, each row of
length `n`; sample `i`'s 3-vector is column `i`. -/
theorem growing_tube_model_vec_shape (ss phis : List ℝ) (E C T r0 : ℝ)
    (p0 : Fin 3 → ℝ) (R0 : Matrix (Fin 3) (Fin 3) ℝ)
    (hlen : ss.length = phis.length) :
    growing_tube_model_vec ss phis E C T r0 p0 R0
      = [(ss.zip phis).map
            (fun sp => growing_tube_model_const sp.1 sp.2 E C T r0 p0 R0 0),
         (ss.zip phis).map
            (fun sp => growing_tube_model_const sp.1 sp.2 E C T r0 p0 R0 1),
         (ss.zip phis).map
            (fun sp => growing_tube_model_const sp.1 sp.2 E C T r0 p0 R0 2)] ∧
    ∀ row ∈ growing_tube_model_vec ss phis E C T r0 p0 R0,
      row.length = ss.length := by
  have hfin : (List.finRange 3) = [0, 1, 2] := by decide
  constructor
  · simp [growing_tube_model_vec, hfin, List.map_map, Function.comp]
  · intro row hrow
    simp only [growing_tube_model_vec, List.mem_map] at hrow
    obtain ⟨j, hj, rfl⟩ := hrow
    simp [List.length_zip, hlen]

/-- Witness for the amended C9 at `s = [0, 1]`, `phi = [2, 3]`, `E = 1`,
`C = 1`, `T = 0`, `r0 = 1`, `p0 = 0`, `R0 = 1`. -/
theorem growing_tube_model_vec_shape_witness :
    (([0, 1] : List ℝ).length = ([2, 3] : List ℝ).length) ∧
    (growing_tube_model_vec [0, 1] [2, 3] 1 1 0 1 (fun _ => 0) 1
      = [(([0, 1] : List ℝ).zip ([2, 3] : List ℝ)).map
            (fun sp => growing_tube_model_const sp.1 sp.2 1 1 0 1 (fun _ => 0) 1 0),
         (([0, 1] : List ℝ).zip ([2, 3] : List ℝ)).map
            (fun sp => growing_tube_model_const sp.1 sp.2 1 1 0 1 (fun _ => 0) 1 1),
         (([0, 1] : List ℝ).zip ([2, 3] : List ℝ)).map
            (fun sp => growing_tube_model_const sp.1 sp.2 1 1 0 1 (fun _ => 0) 1 2)] ∧
    ∀ row ∈ growing_tube_model_vec [0, 1] [2, 3] 1 1 0 1 (fun _ => 0) 1,
      row.length = ([0, 1] : List ℝ).length) := by
  have h : (([0, 1] : List ℝ).length = ([2, 3] : List ℝ).length) := rfl
  exact ⟨h, growing_tube_model_vec_shape [0, 1] [2, 3] 1 1 0 1 (fun _ => 0) 1 h⟩

/-! ## C7: growth-direction adjustment in the trajectory derivation -/

/-- Euclidean distance between consecutive 3D sample points, as
`np.linalg.norm` computes it on the coordinate differences. -/
noncomputable def dist3 (p q : ℝ × ℝ × ℝ) : ℝ :=
  Real.sqrt ((p.1 - q.1) ^ 2 + (p.2.1 - q.2.1) ^ 2 + (p.2.2 - q.2.2) ^ 2)

/-- Running cumulative sums from an accumulator (`np.cumsum` core). -/
def cumsumFrom (acc : ℝ) : List ℝ → List ℝ
  | [] => []
  | x :: xs => (acc + x) :: cumsumFrom (acc + x) xs

/-- Embedding of `np.cumsum`. -/
def cumsum (l : List ℝ) : List ℝ := cumsumFrom 0 l

/-- Chord-length arclength parameters of `_read_mv3d_as_growth_trajectory`:
`np.cumsum(np.append(0, np.linalg.norm(coords[0:-1] - coords[1:], axis=1)))`. -/
noncomputable def arclength_parameters (coords : List (ℝ × ℝ × ℝ)) : List ℝ :=
  cumsum (0 :: ((coords.zip coords.tail).map fun pq => dist3 pq.1 pq.2))

/-- Embedding of the trajectory-derivation part of
`_read_mv3d_as_growth_trajectory` (the file parsing `_read_mv3d_as_df` is the
out-of-scope I/O adapter; `coords` and `thicknesses` stand for its parsed
columns): derives the chord-length arclength parameters and, when direction
adjustment is enabled and the estimated growth rate is negative, reverses all
three sequences and re-zeroes the arclength from the new start
(`-(arc - arc[0])` applied after the reversal). -/
noncomputable def derive_growth_trajectory (coords : List (ℝ × ℝ × ℝ))
    (thicknesses : List ℝ) (adjustDirectionFlag : Bool) :
    List (ℝ × ℝ × ℝ) × List ℝ × List ℝ :=
  let arcs := arclength_parameters coords
  if adjustDirectionFlag then
    if (estimate_gt_e_and_r0 arcs thicknesses).1 < 0 then
      let arcsRev := arcs.reverse
      (coords.reverse, thicknesses.reverse,
        arcsRev.map fun x => -(x - arcsRev.headD 0))
    else (coords, thicknesses, arcs)
  else (coords, thicknesses, arcs)

/-- Helper: `cumsumFrom` preserves length. -/
theorem cumsumFrom_length : ∀ (l : List ℝ) (acc : ℝ),
    (cumsumFrom acc l).length = l.length
  | [], _ => rfl
  | x :: xs, acc => by
    rw [cumsumFrom, List.length_cons, List.length_cons, cumsumFrom_length xs]

/-- Helper: cumulative sums of nonnegative increments are non-decreasing. -/
theorem cumsumFrom_chain : ∀ (l : List ℝ), (∀ x ∈ l, 0 ≤ x) → ∀ acc : ℝ,
    (cumsumFrom acc l).Chain' (· ≤ ·)
  | [], _, _ => by simp [cumsumFrom]
  | x :: xs, h, acc => by
    rw [cumsumFrom]
    refine List.chain'_cons'.mpr ⟨?_, cumsumFrom_chain xs
      (fun y hy => h y (List.mem_cons_of_mem _ hy)) (acc + x)⟩
    intro y hy
    cases xs with
    | nil => simp [cumsumFrom] at hy
    | cons z zs =>
        simp only [cumsumFrom, List.head?_cons, Option.mem_def,
          Option.some.injEq] at hy
        have hz : 0 ≤ z := h z (by simp)
        linarith [hy]

/-- Helper: the arclength parameter list of a nonempty trajectory has one
entry per sample point. -/
theorem arclength_parameters_length (coords : List (ℝ × ℝ × ℝ))
    (hne : coords ≠ []) :
    (arclength_parameters coords).length = coords.length := by
  obtain ⟨p, rest, rfl⟩ := List.exists_cons_of_ne_nil hne
  simp [arclength_parameters, cumsum, cumsumFrom_length, List.length_zip]

/-- Helper: the arclength parameter list starts with `0`. -/
theorem arclength_parameters_head (coords : List (ℝ × ℝ × ℝ)) :
    ∃ t, arclength_parameters coords = 0 :: t := by
  refine ⟨cumsumFrom 0 ((coords.zip coords.tail).map fun pq => dist3 pq.1 pq.2), ?_⟩
  simp [arclength_parameters, cumsum, cumsumFrom]

/-- Helper: the arclength parameter list is non-decreasing. -/
theorem arclength_parameters_chain (coords : List (ℝ × ℝ × ℝ)) :
    (arclength_parameters coords).Chain' (· ≤ ·) := by
  refine cumsumFrom_chain _ ?_ 0
  intro x hx
  rcases List.mem_cons.mp hx with rfl | hx
  · exact le_rfl
  · obtain ⟨pq, hpq, rfl⟩ := List.mem_map.mp hx
    exact Real.sqrt_nonneg _

/-- Helper: `sumMul` over appended equal-length lists splits. -/
theorem sumMul_append : ∀ (xs ys : List ℝ) (x y : ℝ), xs.length = ys.length →
    sumMul (xs ++ [x]) (ys ++ [y]) = sumMul xs ys + x * y
  | [], [], x, y, _ => by simp [sumMul]
  | a :: xs, b :: ys, x, y, h => by
    rw [List.cons_append, List.cons_append]
    rw [show sumMul (a :: (xs ++ [x])) (b :: (ys ++ [y]))
        = a * b + sumMul (xs ++ [x]) (ys ++ [y]) from rfl]
    rw [sumMul_append xs ys x y (by simpa using h),
      show sumMul (a :: xs) (b :: ys) = a * b + sumMul xs ys from rfl]
    ring

/-- Helper: `sumMul` is invariant under simultaneous reversal of equal-length
lists. -/
theorem sumMul_reverse : ∀ (xs ys : List ℝ), xs.length = ys.length →
    sumMul xs.reverse ys.reverse = sumMul xs ys
  | [], [], _ => rfl
  | x :: xs, y :: ys, h => by
    rw [List.reverse_cons, List.reverse_cons,
      sumMul_append xs.reverse ys.reverse x y (by simpa using h),
      sumMul_reverse xs ys (by simpa using h),
      show sumMul (x :: xs) (y :: ys) = x * y + sumMul xs ys from rfl]
    ring

/-- Helper: shifting-and-negating the left list of `sumMul`. -/
theorem sumMul_map_sub_left (c : ℝ) : ∀ (xs ys : List ℝ),
    xs.length = ys.length →
    sumMul (xs.map fun x => c - x) ys = c * ys.sum - sumMul xs ys
  | [], [], _ => by simp [sumMul]
  | x :: xs, y :: ys, h => by
    rw [List.map_cons,
      show sumMul ((c - x) :: (xs.map fun x => c - x)) (y :: ys)
        = (c - x) * y + sumMul (xs.map fun x => c - x) ys from rfl,
      sumMul_map_sub_left c xs ys (by simpa using h),
      show sumMul (x :: xs) (y :: ys) = x * y + sumMul xs ys from rfl,
      List.sum_cons]
    ring

/-- Helper: `sumMul` of a shifted-and-negated list with itself. -/
theorem sumMul_map_sub_self (c : ℝ) : ∀ xs : List ℝ,
    sumMul (xs.map fun x => c - x) (xs.map fun x => c - x)
      = xs.length * c ^ 2 - 2 * c * xs.sum + sumMul xs xs
  | [] => by simp [sumMul]
  | x :: xs => by
    rw [List.map_cons,
      show sumMul ((c - x) :: (xs.map fun x => c - x))
          ((c - x) :: (xs.map fun x => c - x))
        = (c - x) * (c - x) + sumMul (xs.map fun x => c - x)
            (xs.map fun x => c - x) from rfl,
      sumMul_map_sub_self c xs,
      show sumMul (x :: xs) (x :: xs) = x * x + sumMul xs xs from rfl,
      List.sum_cons, List.length_cons]
    push_cast
    ring

/-- Helper: sum of a shifted-and-negated list. -/
theorem sum_map_sub (c : ℝ) : ∀ xs : List ℝ,
    (xs.map fun x => c - x).sum = xs.length * c - xs.sum
  | [] => by simp
  | x :: xs => by
    rw [List.map_cons, List.sum_cons, sum_map_sub c xs, List.sum_cons,
      List.length_cons]
    push_cast
    ring

/-- Helper: reversing both data lists and replacing each abscissa `x` by
`c − x` negates the fitted slope. -/
theorem estimate_slope_reverse_shift (xs ys : List ℝ) (c : ℝ)
    (h : xs.length = ys.length) :
    (estimate_gt_e_and_r0 (xs.reverse.map fun x => c - x) ys.reverse).1
      = -(estimate_gt_e_and_r0 xs ys).1 := by
  have hrr : xs.reverse.length = ys.reverse.length := by simpa using h
  simp only [estimate_gt_e_and_r0]
  rw [sumMul_map_sub_left c xs.reverse ys.reverse hrr,
    sumMul_map_sub_self c xs.reverse,
    sumMul_reverse xs ys h, sumMul_reverse xs xs rfl,
    sum_map_sub c xs.reverse]
  simp only [List.length_map, List.length_reverse, List.sum_reverse]
  ring

/-- C7: with direction adjustment enabled and a negative raw growth-rate
estimate, `deriveGrowthTrajectory` returns the coords, thicknesses and
arclength parameters reversed, with the arclength re-zeroed from the new
start; the returned arclength parameters start at `0`, are monotonically
non-decreasing, and the growth-rate estimate on the returned data is `≥ 0`. -/
theorem derive_growth_trajectory_adjusts_direction
    (coords : List (ℝ × ℝ × ℝ)) (th : List ℝ) (hne : coords ≠ [])
    (hlen : th.length = coords.length)
    (he : (estimate_gt_e_and_r0 (arclength_parameters coords) th).1 < 0) :
    derive_growth_trajectory coords th true
      = (coords.reverse, th.reverse,
          (arclength_parameters coords).reverse.map
            (fun x => -(x - (arclength_parameters coords).reverse.headD 0))) ∧
    (derive_growth_trajectory coords th true).2.2.headD 0 = 0 ∧
    (derive_growth_trajectory coords th true).2.2.Chain' (· ≤ ·) ∧
    0 ≤ (estimate_gt_e_and_r0 (derive_growth_trajectory coords th true).2.2
          (derive_growth_trajectory coords th true).2.1).1 := by
  have harcs_len : (arclength_parameters coords).length = th.length := by
    rw [arclength_parameters_length coords hne, hlen]
  have hd : derive_growth_trajectory coords th true
      = (coords.reverse, th.reverse,
          (arclength_parameters coords).reverse.map
            (fun x => -(x - (arclength_parameters coords).reverse.headD 0))) := by
    rw [derive_growth_trajectory]
    simp only [if_true]
    rw [if_pos he]
  have hmapfun :
      (fun x => -(x - (arclength_parameters coords).reverse.headD 0))
        = fun x => (arclength_parameters coords).reverse.headD 0 - x := by
    funext x
    ring
  refine ⟨hd, ?_, ?_, ?_⟩
  · rw [hd]
    obtain ⟨t, ht⟩ := arclength_parameters_head coords
    have hrev_ne : (arclength_parameters coords).reverse ≠ [] := by
      simp [ht]
    obtain ⟨z, zs, hz⟩ := List.exists_cons_of_ne_nil hrev_ne
    rw [hz]
    simp
  · rw [hd]
    simp only [hmapfun]
    refine (List.chain'_map _).mpr ?_
    refine List.chain'_reverse.mpr ?_
    exact (arclength_parameters_chain coords).imp
      (fun _ _ hab => sub_le_sub_left hab _)
  · rw [hd]
    simp only [hmapfun]
    rw [estimate_slope_reverse_shift (arclength_parameters coords) th
      ((arclength_parameters coords).reverse.headD 0) harcs_len]
    linarith

/-- Witness for C7 on the concrete trajectory `(0,0,0), (1,0,0), (2,0,0)`
with decreasing thicknesses `[2, 1.5, 1]`: the raw slope estimate is
`−0.5 < 0` and the conclusions follow. -/
theorem derive_growth_trajectory_adjusts_direction_witness :
    (([((0 : ℝ), (0 : ℝ), (0 : ℝ)), (1, 0, 0), (2, 0, 0)] : List (ℝ × ℝ × ℝ)) ≠ [] ∧
      ([(2 : ℝ), 1.5, 1] : List ℝ).length
        = ([((0 : ℝ), (0 : ℝ), (0 : ℝ)), (1, 0, 0), (2, 0, 0)] : List (ℝ × ℝ × ℝ)).length ∧
      (estimate_gt_e_and_r0
        (arclength_parameters [((0 : ℝ), (0 : ℝ), (0 : ℝ)), (1, 0, 0), (2, 0, 0)])
        [(2 : ℝ), 1.5, 1]).1 < 0) ∧
    (derive_growth_trajectory [((0 : ℝ), (0 : ℝ), (0 : ℝ)), (1, 0, 0), (2, 0, 0)]
        [(2 : ℝ), 1.5, 1] true
      = (([((0 : ℝ), (0 : ℝ), (0 : ℝ)), (1, 0, 0), (2, 0, 0)] : List (ℝ × ℝ × ℝ)).reverse,
          ([(2 : ℝ), 1.5, 1] : List ℝ).reverse,
          (arclength_parameters [((0 : ℝ), (0 : ℝ), (0 : ℝ)), (1, 0, 0), (2, 0, 0)]).reverse.map
            (fun x => -(x -
              (arclength_parameters [((0 : ℝ), (0 : ℝ), (0 : ℝ)), (1, 0, 0), (2, 0, 0)]).reverse.headD 0))) ∧
    (derive_growth_trajectory [((0 : ℝ), (0 : ℝ), (0 : ℝ)), (1, 0, 0), (2, 0, 0)]
        [(2 : ℝ), 1.5, 1] true).2.2.headD 0 = 0 ∧
    (derive_growth_trajectory [((0 : ℝ), (0 : ℝ), (0 : ℝ)), (1, 0, 0), (2, 0, 0)]
        [(2 : ℝ), 1.5, 1] true).2.2.Chain' (· ≤ ·) ∧
    0 ≤ (estimate_gt_e_and_r0
          (derive_growth_trajectory [((0 : ℝ), (0 : ℝ), (0 : ℝ)), (1, 0, 0), (2, 0, 0)]
            [(2 : ℝ), 1.5, 1] true).2.2
          (derive_growth_trajectory [((0 : ℝ), (0 : ℝ), (0 : ℝ)), (1, 0, 0), (2, 0, 0)]
            [(2 : ℝ), 1.5, 1] true).2.1).1) := by
  have h1 : ([((0 : ℝ), (0 : ℝ), (0 : ℝ)), (1, 0, 0), (2, 0, 0)] : List (ℝ × ℝ × ℝ)) ≠ [] := by
    simp
  have h2 : ([(2 : ℝ), 1.5, 1] : List ℝ).length
      = ([((0 : ℝ), (0 : ℝ), (0 : ℝ)), (1, 0, 0), (2, 0, 0)] : List (ℝ × ℝ × ℝ)).length := rfl
  have harcs : arclength_parameters [((0 : ℝ), (0 : ℝ), (0 : ℝ)), (1, 0, 0), (2, 0, 0)]
      = [0, 1, 2] := by
    simp only [arclength_parameters, cumsum, List.tail_cons, List.zip_cons_cons,
      List.zip_nil_right, List.map_cons, List.map_nil, cumsumFrom]
    norm_num [dist3, Real.sqrt_one]
  have h3 : (estimate_gt_e_and_r0
      (arclength_parameters [((0 : ℝ), (0 : ℝ), (0 : ℝ)), (1, 0, 0), (2, 0, 0)])
      [(2 : ℝ), 1.5, 1]).1 < 0 := by
    rw [harcs]
    norm_num [estimate_gt_e_and_r0, sumMul]
  exact ⟨⟨h1, h2, h3⟩,
    derive_growth_trajectory_adjusts_direction _ _ h1 h2 h3⟩

/-! ## I/O adapter: `_mv3d.py` -/

/-- Embedding of `read_mv3d(filepath, read_as, kws)`, parameterized by oracles
for the two file readers: `readDf` models `_read_mv3d_as_df` and `readTraj`
models `_read_mv3d_as_growth_trajectory` with its `adjust_direction_flag`
(Python default `True` when `kws` lacks the key). `none` models the
`UnboundLocalError` raised by `return X` when `X` was never assigned. -/
def read_mv3d {α β γ : Type} (readDf : α → β) (readTraj : α → Bool → γ)
    (filepath : α) (readAs : String) (kws : Option Bool) : Option (β ⊕ γ) :=
  if readAs = "df" then some (Sum.inl (readDf filepath))
  else if readAs = "growth_trajectory" then
    some (Sum.inr (match kws with
      | some flag => readTraj filepath flag
      | none => readTraj filepath true))
  else none

/-! ## C10: unrecognized read_as values fail -/

/-- C10: for every filepath and every `read_as` other than `"df"` and
`"growth_trajectory"`, `read_mv3d` fails (its result variable is never
assigned) rather than returning a value; no default reading mode is silently
applied. -/
theorem read_mv3d_unknown_mode_fails {α β γ : Type} (readDf : α → β)
    (readTraj : α → Bool → γ) (filepath : α) (readAs : String)
    (kws : Option Bool) :
    read_mv3d readDf readTraj filepath readAs kws = none ↔
      readAs ≠ "df" ∧ readAs ≠ "growth_trajectory" := by
  by_cases h1 : readAs = "df" <;> by_cases h2 : readAs = "growth_trajectory" <;>
    simp [read_mv3d, h1, h2]

end GrowingTube
